import Mathlib

/-!
Verification of the ttymidi-sysex serial/ALSA MIDI bridge (src/ttymidi-sysex.c).

The development shallowly embeds the two core routines of the program:

* `parse_midi_command` (serial → ALSA decode) as `decodeCore` / `decodeList`;
* `write_midi_action_to_serial_port` (ALSA → serial encode) as
  `encEvent` / `encStep` / `encode` / `encRun`;
* the serial framing loop of `read_midi_from_serial_port` as the state
  machine `step` / `run`.

Bytes are modelled as `Nat` with explicit `% 256` where the C code stores
into `unsigned char`, `% 128` for `& 0x7F`, `/ 16 * 16` for `& 0xF0`,
`% 16` for `& 0x0F`, and `Int.fdiv`/`Int.emod` for the C `int` shift and
mask operations on possibly-signed values.  The serial byte buffer `buf`
is modelled as a total function `Nat → Nat` (a C array without bounds),
updated pointwise exactly where the C code writes.
-/

/-- Size of the serial midi buffer (`#define BUF_SIZE 1024`). -/
def BUF_SIZE : Nat := 1024

/-- Maximum text message size (`#define MAX_MSG_SIZE 1024`). -/
def MAX_MSG_SIZE : Nat := 1024

/-- Size of the outbound sysex scratch buffer
(`unsigned char sysex_data[256]` in `write_midi_action_to_serial_port`). -/
def SYSEX_DATA_SIZE : Nat := 256

/-- The ALSA sequencer events the program reads and writes: the message
representation at the ALSA boundary.  `pitchbend` and `songpos` carry the
`int`-typed `data.control.value` field; the other data fields are bytes.
`unknown` stands for an event the `switch` statements do not recognise
(the cleared event is still output in that case). -/
inductive AlsaEvent where
  | noteoff (channel note velocity : Nat)
  | noteon (channel note velocity : Nat)
  | keypress (channel note velocity : Nat)
  | controller (channel param value : Nat)
  | pgmchange (channel value : Nat)
  | chanpress (channel value : Nat)
  | pitchbend (channel : Nat) (value : Int)
  | sysex (data : List Nat)
  | qframe (value : Nat)
  | songpos (value : Int)
  | songsel (value : Nat)
  | tune
  | clock
  | start
  | cont
  | stop
  | sensing
  | unknown
deriving DecidableEq, Repr

/-- Embedding of `parse_midi_command(seq, port, buf, buflen)`.  The
arguments `b0 b1 b2` are `buf[0]`, `buf[1]`, `buf[2]` (the function reads
all three unconditionally, even when `buflen < 3`), and `frame` is the
first `buflen` bytes of `buf` (used only by the sysex branch, via
`snd_seq_ev_set_sysex(&ev, buflen, buf)`).  `operation = buf[0] & 0xF0`,
`channel = buf[0] & 0x0F`, `param1 = buf[1] & 0xFF`,
`param2 = buf[2] & 0xFF`; pitch bend reconstructs
`(param1 & 0x7F) + ((param2 & 0x7F) << 7)` and subtracts 8192, song
position reconstructs the same 14-bit value without subtracting. -/
def decodeCore (b0 b1 b2 : Nat) (frame : List Nat) : AlsaEvent :=
  if b0 / 16 * 16 = 0x90 then .noteon (b0 % 16) (b1 % 256) (b2 % 256)
  else if b0 / 16 * 16 = 0x80 then .noteoff (b0 % 16) (b1 % 256) (b2 % 256)
  else if b0 / 16 * 16 = 0xA0 then .keypress (b0 % 16) (b1 % 256) (b2 % 256)
  else if b0 / 16 * 16 = 0xB0 then .controller (b0 % 16) (b1 % 256) (b2 % 256)
  else if b0 / 16 * 16 = 0xC0 then .pgmchange (b0 % 16) (b1 % 256)
  else if b0 / 16 * 16 = 0xD0 then .chanpress (b0 % 16) (b1 % 256)
  else if b0 / 16 * 16 = 0xE0 then
    .pitchbend (b0 % 16) ((b1 % 256 % 128 : Nat) + ((b2 % 256 % 128 : Nat) : Int) * 128 - 8192)
  else if b0 / 16 * 16 = 0xF0 then
    if b0 % 16 = 0x0 then .sysex frame
    else if b0 % 16 = 0x1 then .qframe (b1 % 256)
    else if b0 % 16 = 0x2 then
      .songpos ((b1 % 256 % 128 : Nat) + ((b2 % 256 % 128 : Nat) : Int) * 128)
    else if b0 % 16 = 0x3 then .songsel (b1 % 256)
    else if b0 % 16 = 0x6 then .tune
    else if b0 % 16 = 0x8 then .clock
    else if b0 % 16 = 0xA then .start
    else if b0 % 16 = 0xB then .cont
    else if b0 % 16 = 0xC then .stop
    else if b0 % 16 = 0xE then .sensing
    else .unknown
  else .unknown

/-- Decode a whole written byte sequence: `parse_midi_command` applied to a
buffer holding exactly these bytes (out-of-range reads of `buf[1]`/`buf[2]`
are modelled as 0; no claim's result depends on that choice). -/
def decodeList (bs : List Nat) : AlsaEvent :=
  decodeCore (bs.getD 0 0) (bs.getD 1 0) (bs.getD 2 0) bs

/-- The mutable locals of `write_midi_action_to_serial_port` that persist
across iterations of its event-draining `do ... while` loop:
`unsigned char bytes[] = {0x00, 0x00, 0xFF}`, `unsigned char
sysex_data[256]` and `int sysex_len = 0`.  `sysexData` is total (a C
array without a bounds check). -/
structure EncSt where
  b0 : Nat
  b1 : Nat
  b2 : Nat
  sysexLen : Nat
  sysexData : Nat → Nat

/-- State of the encoder locals at function entry. -/
def encInit : EncSt := ⟨0x00, 0x00, 0xFF, 0, fun _ => 0⟩

/-- Indices stored by the sysex copy loop
`for (i=0; i<sysex_len; i++) sysex_data[i] = val & 0xFF;`. -/
def sysexStores (len : Nat) : List Nat := List.range len

/-- The sysex copy loop itself: writes `data[i] & 0xFF` at each index in
`sysexStores data.length`. -/
def storeSysex (f : Nat → Nat) (d : List Nat) : Nat → Nat :=
  (sysexStores d.length).foldl (fun g j => fun k => if k = j then d.getD j 0 % 256 else g k) f

/-- The `switch (ev->type)` of `write_midi_action_to_serial_port`: how one
ALSA event updates the encoder locals.  Stores into the `unsigned char`
array `bytes` are taken `% 256`; for pitch bend and song position the code
first does `ev->data.control.value += 8192` and then stores
`value & 0x7F` and `(unsigned char)(value >> 7)`. -/
def encEvent (s : EncSt) (e : AlsaEvent) : EncSt :=
  match e with
  | .noteoff ch n v => { s with b0 := (0x80 + ch) % 256, b1 := n % 256, b2 := v % 256 }
  | .noteon ch n v => { s with b0 := (0x90 + ch) % 256, b1 := n % 256, b2 := v % 256 }
  | .keypress ch n v => { s with b0 := (0xA0 + ch) % 256, b1 := n % 256, b2 := v % 256 }
  | .controller ch p v => { s with b0 := (0xB0 + ch) % 256, b1 := p % 256, b2 := v % 256 }
  | .pgmchange ch v => { s with b0 := (0xC0 + ch) % 256, b1 := v % 256 }
  | .chanpress ch v => { s with b0 := (0xD0 + ch) % 256, b1 := v % 256 }
  | .pitchbend ch v =>
      { s with b0 := (0xE0 + ch) % 256,
               b1 := ((v + 8192) % 128).toNat,
               b2 := (((v + 8192).fdiv 128) % 256).toNat }
  | .sysex d => { s with sysexLen := d.length, sysexData := storeSysex s.sysexData d }
  | .qframe v => { s with b0 := 0xF1, b1 := v % 256 }
  | .songpos v =>
      { s with b0 := 0xF2,
               b1 := ((v + 8192) % 128).toNat,
               b2 := (((v + 8192).fdiv 128) % 256).toNat }
  | .songsel v => { s with b0 := 0xF3, b1 := v % 256 }
  | .tune => { s with b0 := 0xF6 }
  | .clock => { s with b0 := 0xF8 }
  | .start => { s with b0 := 0xFA }
  | .cont => { s with b0 := 0xFB }
  | .stop => { s with b0 := 0xFC }
  | .sensing => { s with b0 := 0xFE }
  | .unknown => s

/-- One iteration of the encoder's drain loop: apply the event `switch`,
then the serial-write section.  Returns the updated locals and the bytes
written to the serial port for this event.  The write section is, verbatim
from the source: if `sysex_len > 0` write `sysex_data[0..sysex_len)`;
otherwise if `bytes[0] != 0x00` then `bytes[1] &= 0x7F` and
write 2 bytes when `bytes[2]==0xFF || bytes[0]==0xF1 || bytes[0]==0xF3 ||
bytes[0]==0xF5`, 1 byte when `bytes[0]==0xF4 || bytes[0]==0xF6 ||
bytes[0]>=0xF8`, else `bytes[2] &= 0x7F` and write 3 bytes. -/
def encStep (s : EncSt) (e : AlsaEvent) : EncSt × List Nat :=
  let t := encEvent s e
  if 0 < t.sysexLen then (t, (sysexStores t.sysexLen).map t.sysexData)
  else if t.b0 ≠ 0x00 then
    let t1 : EncSt := { t with b1 := t.b1 % 128 }
    if t1.b2 = 0xFF ∨ t1.b0 = 0xF1 ∨ t1.b0 = 0xF3 ∨ t1.b0 = 0xF5 then (t1, [t1.b0, t1.b1])
    else if t1.b0 = 0xF4 ∨ t1.b0 = 0xF6 ∨ 0xF8 ≤ t1.b0 then (t1, [t1.b0])
    else
      let t2 : EncSt := { t1 with b2 := t1.b2 % 128 }
      (t2, [t2.b0, t2.b1, t2.b2])
  else (t, [])

/-- Bytes written to the serial port for a single event arriving at a fresh
invocation of `write_midi_action_to_serial_port`. -/
def encode (e : AlsaEvent) : List Nat := (encStep encInit e).2

/-- Bytes written for a whole batch of pending events drained by one
invocation (the `do ... while (snd_seq_event_input_pending ...)` loop);
the locals persist from one event to the next. -/
def encRun (s : EncSt) : List AlsaEvent → List Nat
  | [] => []
  | e :: rest => (encStep s e).2 ++ encRun (encStep s e).1 rest

/-- Control position of the serial-reading thread
`read_midi_from_serial_port`: the initial fast-forward `do ... while`
(`resync`), the inner framing `while (i < bytesleft)` loop (`main`), and
the two extra reads of the text-comment branch (`textLen` reads the
length byte, `textMsg` reads that many message bytes). -/
inductive FrMode where
  | resync
  | main
  | textLen
  | textMsg (rem : Nat) (acc : List Nat)
deriving DecidableEq, Repr

/-- The locals of `read_midi_from_serial_port`: the byte buffer
`unsigned char buf[BUF_SIZE]` (modelled total; its initial contents are
uninitialised and therefore a parameter), the index `i` and the frame
length target `bytesleft`, plus the control position. -/
structure FrSt where
  buf : Nat → Nat
  i : Nat
  bl : Nat
  mode : FrMode

/-- The frame handed to the decoder: `buf[0..i)`. -/
def frameOf (buf : Nat → Nat) (i : Nat) : List Nat := (List.range i).map buf

/-- An observable output of the serial-reading thread: either an
invocation `parse_midi_command(seq, port, buf, buflen)` — recorded with
the delivered frame `buf[0..buflen)` and the three header bytes `buf[0]`,
`buf[1]`, `buf[2]` that the decoder reads unconditionally — or a printed
text comment. -/
inductive Emit where
  | midi (frame : List Nat) (b0 b1 b2 : Nat)
  | text (msg : List Nat)
deriving DecidableEq, Repr

/-- Exit of the inner framing loop with frame length `i`: the text-marker
check `buf[0]==0xFF && buf[1]==0x00 && buf[2]==0x00` selects the
text-comment branch, otherwise `parse_midi_command(seq, port, buf, i)` is
invoked; either way the outer loop restarts with `i = 1` and
`bytesleft = BUF_SIZE - 1`. -/
def exitEmit (buf : Nat → Nat) (i : Nat) : FrSt × List Emit :=
  if buf 0 = 0xFF ∧ buf 1 = 0x00 ∧ buf 2 = 0x00 then
    (⟨buf, 1, BUF_SIZE - 1, .textLen⟩, [])
  else
    (⟨buf, 1, BUF_SIZE - 1, .main⟩, [.midi (frameOf buf i) (buf 0) (buf 1) (buf 2)])

/-- Process one serial byte.  In `resync`, bytes are read into `buf[0]`
until one with the high bit set arrives.  In `main`, the byte is read
into `buf[i]` (masked `& 0xFF`); a status byte either terminates a sysex
frame (`buf[i]==0xF7 && buf[0]==0xF0`, with `i++` before the `break`) or
becomes the new `buf[0]` with `bytesleft` set from the length table
(1 for `0xF1/0xF3/0xF5`; 0 for `0xF4`, `0xF6` and `>= 0xF8`; 3 for other
non-sysex statuses; unchanged for `0xF0`) and `i = 1`; a data byte
advances `i` (`i++` during sysex, otherwise the 2/3-byte channel-voice
count with the `0xC0/0xD0` one-data-byte special case).  The loop
condition `i < bytesleft` is then re-checked: on failure the frame is
complete and `exitEmit` runs.  `textLen` and `textMsg` are the reads of
the text-comment branch (length clamped to `MAX_MSG_SIZE - 1`). -/
def step (s : FrSt) (raw : Nat) : FrSt × List Emit :=
  let b := raw % 256
  match s.mode with
  | .resync =>
      let buf' := fun j => if j = 0 then b else s.buf j
      if b / 128 ≠ 0 then (⟨buf', 1, BUF_SIZE - 1, .main⟩, [])
      else (⟨buf', s.i, s.bl, .resync⟩, [])
  | .main =>
      let bufA := fun j => if j = s.i then b else s.buf j
      if b / 128 ≠ 0 then
        if b = 0xF7 ∧ bufA 0 = 0xF0 then
          exitEmit bufA (s.i + 1)
        else
          let bufB := fun j => if j = 0 then b else bufA j
          let bl' :=
            if b = 0xF1 ∨ b = 0xF3 ∨ b = 0xF5 then 1
            else if 0xF4 ≤ b ∨ 0xF6 ≤ b ∨ (0xF8 ≤ b ∧ b ≤ 0xFE) then 0
            else if b ≠ 0xF0 then 3
            else s.bl
          if 1 < bl' then (⟨bufB, 1, bl', .main⟩, []) else exitEmit bufB 1
      else
        let i' :=
          if bufA 0 = 0xF0 then s.i + 1
          else if s.i = 2 then 3
          else if bufA 0 / 16 * 16 = 0xC0 ∨ bufA 0 / 16 * 16 = 0xD0 then 3
          else 2
        if i' < s.bl then (⟨bufA, i', s.bl, .main⟩, []) else exitEmit bufA i'
  | .textLen =>
      let buf' := fun j => if j = 0 then b else s.buf j
      let msglen := min b (MAX_MSG_SIZE - 1)
      if msglen = 0 then (⟨buf', 1, BUF_SIZE - 1, .main⟩, [.text []])
      else (⟨buf', 1, BUF_SIZE - 1, .textMsg msglen []⟩, [])
  | .textMsg rem acc =>
      if rem ≤ 1 then (⟨s.buf, 1, BUF_SIZE - 1, .main⟩, [.text (acc ++ [b])])
      else (⟨s.buf, s.i, s.bl, .textMsg (rem - 1) (acc ++ [b])⟩, [])

/-- Run the serial-reading thread over a finite list of incoming bytes,
collecting its outputs and final state. -/
def run (s : FrSt) : List Nat → List Emit × FrSt
  | [] => ([], s)
  | b :: rest =>
      let p := step s b
      let q := run p.1 rest
      (p.2 ++ q.1, q.2)

/-- Thread state at entry of `read_midi_from_serial_port`: about to
fast-forward to the first status byte, with `buf` uninitialised. -/
def initSt (buf0 : Nat → Nat) : FrSt := ⟨buf0, 1, BUF_SIZE - 1, .resync⟩

/-- The outputs produced on a byte stream from thread start. -/
def runEmits (buf0 : Nat → Nat) (input : List Nat) : List Emit :=
  (run (initSt buf0) input).1

/-- The ALSA event constructed by `parse_midi_command` for a delivered
frame; `none` for a text comment (never forwarded to ALSA). -/
def decodeEmit : Emit → Option AlsaEvent
  | .midi fr b0 b1 b2 => some (decodeCore b0 b1 b2 fr)
  | .text _ => none

/-- The sequence of ALSA events delivered to the sequencer for a byte
stream from thread start (zero-initialised model of the uninitialised
buffer; the theorems that depend on buffer contents quantify over it). -/
def decodedRun (input : List Nat) : List AlsaEvent :=
  (runEmits (fun _ => 0) input).filterMap decodeEmit

/-- The in-range messages quantified over by the round-trip property:
channel 0-15, data bytes 0-127, `data2` present exactly for the
two-data-byte kinds; pitch bend carries the ALSA signed value whose
offset form is two 7-bit data bytes; a sysex ALSA event's `ext` data is
the full delimited wire frame `0xF0 <payload> 0xF7` with 7-bit payload;
song position 0-16383; MTC quarter frame and song select 0-127. -/
def validMsg : AlsaEvent → Prop
  | .noteoff ch d1 d2 => ch < 16 ∧ d1 < 128 ∧ d2 < 128
  | .noteon ch d1 d2 => ch < 16 ∧ d1 < 128 ∧ d2 < 128
  | .keypress ch d1 d2 => ch < 16 ∧ d1 < 128 ∧ d2 < 128
  | .controller ch p v => ch < 16 ∧ p < 128 ∧ v < 128
  | .pgmchange ch v => ch < 16 ∧ v < 128
  | .chanpress ch v => ch < 16 ∧ v < 128
  | .pitchbend ch v => ch < 16 ∧ -8192 ≤ v ∧ v < 8192
  | .sysex d => ∃ p, d = 0xF0 :: p ++ [0xF7] ∧ ∀ b ∈ p, b < 128
  | .qframe v => v < 128
  | .songpos v => 0 ≤ v ∧ v < 16384
  | .songsel v => v < 128
  | .tune => True
  | .clock => True
  | .start => True
  | .cont => True
  | .stop => True
  | .sensing => True
  | .unknown => False

/-- What decode-after-encode actually returns: the identity on every
valid message kind except song position, where the encoder adds the 8192
pitch-bend offset but the decoder does not subtract it. -/
def rtExpected : AlsaEvent → AlsaEvent
  | .songpos v => .songpos ((v + 8192) % 16384)
  | m => m

/-- Sequential writes of the data byte `0x01` at indices `i, i+1, ...,
i+k-1`, as performed by the sysex-accumulation arm of the framing loop. -/
def wrOnes : (Nat → Nat) → Nat → Nat → (Nat → Nat)
  | buf, _, 0 => buf
  | buf, i, k + 1 => wrOnes (fun j => if j = i then 1 else buf j) (i + 1) k

def oversizedInput : List Nat := [0x90, 0x40, 0x7F, 0xF0] ++ List.replicate 1022 0x01

/-- Invariant of the framing loop: whenever the thread is inside the
inner `while (i < bytesleft)` loop, `i` is at least 1 and either
`bytesleft` still has its loop-top value `BUF_SIZE - 1` or `buf[0]`
already holds a status byte. -/
def FrInv (s : FrSt) : Prop :=
  s.mode = .main → 1 ≤ s.i ∧ (s.bl = BUF_SIZE - 1 ∨ 128 ≤ s.buf 0)


example : runEmits (fun _ => 0) [0x90, 0x40, 0x7F] = [] := by decide
example : runEmits (fun _ => 0) [0x90, 0x40, 0x7F, 0x90, 0x41, 0x7E] =
    [.midi [0x90, 0x41, 0x7E] 0x90 0x41 0x7E] := by decide
example : decodedRun [0x90, 0x40, 0x7F, 0x90, 0xF8, 0x40, 0x7F, 0x90, 0x41, 0x7E] =
    [.clock, .noteon 0 0x41 0x7E] := by decide
example : decodedRun [0x90, 0x40, 0x7F, 0xF1, 0x25, 0x90, 0x41, 0x7E] =
    [.qframe 0x40, .noteon 0 0x41 0x7E] := by decide
example : runEmits (fun _ => 0)
    [0x90, 0x00, 0x00, 0x90, 0x00, 0x00, 0x00, 0x00, 0xFF, 0x05, 0x68, 0x65, 0x6C, 0x6C, 0x6F] =
    [.midi [0x90, 0x00, 0x00] 0x90 0x00 0x00, .text [0x68, 0x65, 0x6C, 0x6C, 0x6F]] := by decide

example : encode (.noteon 3 0x40 0x7F) = [0x93, 0x40, 0x7F] := by decide
example : encode (.pgmchange 2 0x21) = [0xC2, 0x21] := by decide
example : encode .clock = [0xF8, 0x00] := by decide
example : encode (.qframe 0x25) = [0xF1, 0x25] := by decide
example : decodeList [0x93, 0x40, 0x7F] = .noteon 3 0x40 0x7F := by decide
example : decodeList [0xF8, 0x00] = .clock := by decide
example : decodeList (encode (.pitchbend 0 0)) = .pitchbend 0 0 := by decide
example : decodeList (encode (.songpos 0)) = .songpos 8192 := by decide

lemma foldl_store_eval (L : List Nat) (d : List Nat) (f : Nat → Nat) (k : Nat) :
    (L.foldl (fun g j => fun k' => if k' = j then d.getD j 0 % 256 else g k') f) k =
      if k ∈ L then d.getD k 0 % 256 else f k := by
  induction L generalizing f with
  | nil => simp
  | cons j L ih =>
      simp only [List.foldl_cons, ih, List.mem_cons]
      by_cases hkL : k ∈ L
      · simp [hkL]
      · by_cases hkj : k = j
        · subst hkj; simp [hkL]
        · simp [hkL, hkj]

lemma storeSysex_eval (f : Nat → Nat) (d : List Nat) (k : Nat) :
    storeSysex f d k = if k < d.length then d.getD k 0 % 256 else f k := by
  rw [storeSysex, foldl_store_eval]
  simp [sysexStores, List.mem_range]

lemma map_getD_range (d : List Nat) :
    (List.range d.length).map (fun j => d.getD j 0 % 256) = d.map (· % 256) := by
  induction d with
  | nil => simp
  | cons a d ih =>
      rw [List.length_cons, List.range_succ_eq_map, List.map_cons, List.map_map]
      have hc : ((fun j => (a :: d).getD j 0 % 256) ∘ Nat.succ) =
          fun j => d.getD j 0 % 256 := by
        funext j
        simp
      rw [hc, ih]
      simp

lemma sysex_write_eval (f : Nat → Nat) (d : List Nat) :
    (sysexStores d.length).map (storeSysex f d) = d.map (· % 256) := by
  rw [← map_getD_range d]
  refine List.map_congr_left ?_
  intro j hj
  rw [sysexStores, List.mem_range] at hj
  rw [storeSysex_eval, if_pos hj]

lemma fdiv_natCast (m n : Nat) : Int.fdiv (m : Int) (n : Int) = ((m / n : Nat) : Int) := by
  cases m with
  | zero => simp [Int.fdiv]
  | succ k => rfl

lemma emod_natCast (m n : Nat) : (m : Int) % (n : Int) = ((m % n : Nat) : Int) := by
  omega

lemma fdiv128_natCast (m : Nat) : Int.fdiv (m : Int) 128 = ((m / 128 : Nat) : Int) := by
  cases m with
  | zero => simp [Int.fdiv]
  | succ k => rfl

lemma emod128_natCast (m : Nat) : (m : Int) % 128 = ((m % 128 : Nat) : Int) := by
  omega

lemma emod256_natCast (m : Nat) : (m : Int) % 256 = ((m % 256 : Nat) : Int) := by
  omega

lemma encode_noteoff (ch n v : Nat) (hch : ch < 16) (hn : n < 128) (hv : v < 128) :
    encode (.noteoff ch n v) = [0x80 + ch, n, v] := by
  simp only [encode, encStep, encEvent, encInit]
  split_ifs <;> simp_all <;> omega

lemma encode_noteon (ch n v : Nat) (hch : ch < 16) (hn : n < 128) (hv : v < 128) :
    encode (.noteon ch n v) = [0x90 + ch, n, v] := by
  simp only [encode, encStep, encEvent, encInit]
  split_ifs <;> simp_all <;> omega

lemma encode_keypress (ch n v : Nat) (hch : ch < 16) (hn : n < 128) (hv : v < 128) :
    encode (.keypress ch n v) = [0xA0 + ch, n, v] := by
  simp only [encode, encStep, encEvent, encInit]
  split_ifs <;> simp_all <;> omega

lemma encode_controller (ch p v : Nat) (hch : ch < 16) (hp : p < 128) (hv : v < 128) :
    encode (.controller ch p v) = [0xB0 + ch, p, v] := by
  simp only [encode, encStep, encEvent, encInit]
  split_ifs <;> simp_all <;> omega

lemma encode_pgmchange (ch v : Nat) (hch : ch < 16) (hv : v < 128) :
    encode (.pgmchange ch v) = [0xC0 + ch, v] := by
  simp only [encode, encStep, encEvent, encInit]
  split_ifs <;> simp_all <;> omega

lemma encode_chanpress (ch v : Nat) (hch : ch < 16) (hv : v < 128) :
    encode (.chanpress ch v) = [0xD0 + ch, v] := by
  simp only [encode, encStep, encEvent, encInit]
  split_ifs <;> simp_all <;> omega

lemma encode_qframe (v : Nat) (hv : v < 128) :
    encode (.qframe v) = [0xF1, v] := by
  rw [show encode (.qframe v) = [0xF1, v % 256 % 128] from rfl]
  simp only [List.cons.injEq, and_true, true_and]
  omega

lemma encode_songsel (v : Nat) (hv : v < 128) :
    encode (.songsel v) = [0xF3, v] := by
  rw [show encode (.songsel v) = [0xF3, v % 256 % 128] from rfl]
  simp only [List.cons.injEq, and_true, true_and]
  omega

lemma encode_pitchbend (ch : Nat) (v : Int) (hch : ch < 16)
    (h1 : -8192 ≤ v) (h2 : v < 8192) :
    encode (.pitchbend ch v) =
      [0xE0 + ch, (v + 8192).toNat % 128, (v + 8192).toNat / 128] := by
  obtain ⟨w, hw⟩ : ∃ w : Nat, v + 8192 = (w : Int) :=
    ⟨(v + 8192).toNat, (Int.toNat_of_nonneg (by omega)).symm⟩
  simp only [encode, encStep, encEvent, encInit]
  rw [hw]
  simp only [fdiv128_natCast, emod128_natCast, emod256_natCast, Int.toNat_natCast]
  split_ifs <;> simp_all <;> omega

lemma encode_songpos (v : Int) (h1 : 0 ≤ v) (h2 : v < 16384) :
    encode (.songpos v) =
      [0xF2, (v + 8192).toNat % 128, (v + 8192).toNat / 128 % 128] := by
  obtain ⟨w, hw⟩ : ∃ w : Nat, v + 8192 = (w : Int) :=
    ⟨(v + 8192).toNat, (Int.toNat_of_nonneg (by omega)).symm⟩
  simp only [encode, encStep, encEvent, encInit]
  rw [hw]
  simp only [fdiv128_natCast, emod128_natCast, emod256_natCast, Int.toNat_natCast]
  split_ifs <;> simp_all <;> omega

lemma encode_sysex (d : List Nat) (hd : 0 < d.length) :
    encode (.sysex d) = d.map (· % 256) := by
  simp only [encode, encStep, encEvent, encInit]
  rw [if_pos hd]
  exact sysex_write_eval _ d

lemma map_mod_id (d : List Nat) (h : ∀ b ∈ d, b < 256) : d.map (· % 256) = d := by
  have h2 : ∀ b ∈ d, b % 256 = b := fun b hb => Nat.mod_eq_of_lt (h b hb)
  exact (List.map_congr_left h2).trans (List.map_id d)

lemma decodeCore_noteon (b0 b1 b2 : Nat) (fr : List Nat) (h : b0 / 16 * 16 = 0x90) :
    decodeCore b0 b1 b2 fr = .noteon (b0 % 16) (b1 % 256) (b2 % 256) := by
  rw [decodeCore, if_pos h]

lemma decodeCore_noteoff (b0 b1 b2 : Nat) (fr : List Nat) (h : b0 / 16 * 16 = 0x80) :
    decodeCore b0 b1 b2 fr = .noteoff (b0 % 16) (b1 % 256) (b2 % 256) := by
  rw [decodeCore]
  repeat first | rw [if_neg (by omega)] | rw [if_pos (by omega)]

lemma decodeCore_keypress (b0 b1 b2 : Nat) (fr : List Nat) (h : b0 / 16 * 16 = 0xA0) :
    decodeCore b0 b1 b2 fr = .keypress (b0 % 16) (b1 % 256) (b2 % 256) := by
  rw [decodeCore]
  repeat first | rw [if_neg (by omega)] | rw [if_pos (by omega)]

lemma decodeCore_controller (b0 b1 b2 : Nat) (fr : List Nat) (h : b0 / 16 * 16 = 0xB0) :
    decodeCore b0 b1 b2 fr = .controller (b0 % 16) (b1 % 256) (b2 % 256) := by
  rw [decodeCore]
  repeat first | rw [if_neg (by omega)] | rw [if_pos (by omega)]

lemma decodeCore_pgmchange (b0 b1 b2 : Nat) (fr : List Nat) (h : b0 / 16 * 16 = 0xC0) :
    decodeCore b0 b1 b2 fr = .pgmchange (b0 % 16) (b1 % 256) := by
  rw [decodeCore]
  repeat first | rw [if_neg (by omega)] | rw [if_pos (by omega)]

lemma decodeCore_chanpress (b0 b1 b2 : Nat) (fr : List Nat) (h : b0 / 16 * 16 = 0xD0) :
    decodeCore b0 b1 b2 fr = .chanpress (b0 % 16) (b1 % 256) := by
  rw [decodeCore]
  repeat first | rw [if_neg (by omega)] | rw [if_pos (by omega)]

lemma decodeCore_pitchbend (b0 b1 b2 : Nat) (fr : List Nat) (h : b0 / 16 * 16 = 0xE0) :
    decodeCore b0 b1 b2 fr =
      .pitchbend (b0 % 16) ((b1 % 256 % 128 : Nat) + ((b2 % 256 % 128 : Nat) : Int) * 128 - 8192) := by
  rw [decodeCore]
  repeat first | rw [if_neg (by omega)] | rw [if_pos (by omega)]

lemma decodeCore_sysex (b0 b1 b2 : Nat) (fr : List Nat)
    (h : b0 / 16 * 16 = 0xF0) (hc : b0 % 16 = 0x0) :
    decodeCore b0 b1 b2 fr = .sysex fr := by
  rw [decodeCore]
  repeat first | rw [if_neg (by omega)] | rw [if_pos (by omega)]

lemma decodeCore_qframe (b0 b1 b2 : Nat) (fr : List Nat)
    (h : b0 / 16 * 16 = 0xF0) (hc : b0 % 16 = 0x1) :
    decodeCore b0 b1 b2 fr = .qframe (b1 % 256) := by
  rw [decodeCore]
  repeat first | rw [if_neg (by omega)] | rw [if_pos (by omega)]

lemma decodeCore_songpos (b0 b1 b2 : Nat) (fr : List Nat)
    (h : b0 / 16 * 16 = 0xF0) (hc : b0 % 16 = 0x2) :
    decodeCore b0 b1 b2 fr =
      .songpos ((b1 % 256 % 128 : Nat) + ((b2 % 256 % 128 : Nat) : Int) * 128) := by
  rw [decodeCore]
  repeat first | rw [if_neg (by omega)] | rw [if_pos (by omega)]

lemma decodeCore_songsel (b0 b1 b2 : Nat) (fr : List Nat)
    (h : b0 / 16 * 16 = 0xF0) (hc : b0 % 16 = 0x3) :
    decodeCore b0 b1 b2 fr = .songsel (b1 % 256) := by
  rw [decodeCore]
  repeat first | rw [if_neg (by omega)] | rw [if_pos (by omega)]

lemma rt_noteoff (ch n v : Nat) (hch : ch < 16) (hn : n < 128) (hv : v < 128) :
    decodeList (encode (.noteoff ch n v)) = .noteoff ch n v := by
  rw [encode_noteoff ch n v hch hn hv]
  simp only [decodeList, List.getD_cons_zero, List.getD_cons_succ]
  rw [decodeCore_noteoff _ _ _ _ (by omega)]
  simp only [AlsaEvent.noteoff.injEq]
  omega

lemma rt_noteon (ch n v : Nat) (hch : ch < 16) (hn : n < 128) (hv : v < 128) :
    decodeList (encode (.noteon ch n v)) = .noteon ch n v := by
  rw [encode_noteon ch n v hch hn hv]
  simp only [decodeList, List.getD_cons_zero, List.getD_cons_succ]
  rw [decodeCore_noteon _ _ _ _ (by omega)]
  simp only [AlsaEvent.noteon.injEq]
  omega

lemma rt_keypress (ch n v : Nat) (hch : ch < 16) (hn : n < 128) (hv : v < 128) :
    decodeList (encode (.keypress ch n v)) = .keypress ch n v := by
  rw [encode_keypress ch n v hch hn hv]
  simp only [decodeList, List.getD_cons_zero, List.getD_cons_succ]
  rw [decodeCore_keypress _ _ _ _ (by omega)]
  simp only [AlsaEvent.keypress.injEq]
  omega

lemma rt_controller (ch p v : Nat) (hch : ch < 16) (hp : p < 128) (hv : v < 128) :
    decodeList (encode (.controller ch p v)) = .controller ch p v := by
  rw [encode_controller ch p v hch hp hv]
  simp only [decodeList, List.getD_cons_zero, List.getD_cons_succ]
  rw [decodeCore_controller _ _ _ _ (by omega)]
  simp only [AlsaEvent.controller.injEq]
  omega

lemma rt_pgmchange (ch v : Nat) (hch : ch < 16) (hv : v < 128) :
    decodeList (encode (.pgmchange ch v)) = .pgmchange ch v := by
  rw [encode_pgmchange ch v hch hv]
  simp only [decodeList, List.getD_cons_zero, List.getD_cons_succ]
  rw [decodeCore_pgmchange _ _ _ _ (by omega)]
  simp only [AlsaEvent.pgmchange.injEq]
  omega

lemma rt_chanpress (ch v : Nat) (hch : ch < 16) (hv : v < 128) :
    decodeList (encode (.chanpress ch v)) = .chanpress ch v := by
  rw [encode_chanpress ch v hch hv]
  simp only [decodeList, List.getD_cons_zero, List.getD_cons_succ]
  rw [decodeCore_chanpress _ _ _ _ (by omega)]
  simp only [AlsaEvent.chanpress.injEq]
  omega

lemma rt_pitchbend (ch : Nat) (v : Int) (hch : ch < 16) (h1 : -8192 ≤ v) (h2 : v < 8192) :
    decodeList (encode (.pitchbend ch v)) = .pitchbend ch v := by
  rw [encode_pitchbend ch v hch h1 h2]
  simp only [decodeList, List.getD_cons_zero, List.getD_cons_succ]
  rw [decodeCore_pitchbend _ _ _ _ (by omega)]
  simp only [AlsaEvent.pitchbend.injEq]
  constructor
  · omega
  · omega

lemma rt_qframe (v : Nat) (hv : v < 128) :
    decodeList (encode (.qframe v)) = .qframe v := by
  rw [encode_qframe v hv]
  simp only [decodeList, List.getD_cons_zero, List.getD_cons_succ]
  rw [decodeCore_qframe _ _ _ _ (by omega) (by omega)]
  simp only [AlsaEvent.qframe.injEq]
  omega

lemma rt_songpos (v : Int) (h1 : 0 ≤ v) (h2 : v < 16384) :
    decodeList (encode (.songpos v)) = .songpos ((v + 8192) % 16384) := by
  rw [encode_songpos v h1 h2]
  simp only [decodeList, List.getD_cons_zero, List.getD_cons_succ]
  rw [decodeCore_songpos _ _ _ _ (by omega) (by omega)]
  simp only [AlsaEvent.songpos.injEq]
  omega

lemma rt_songsel (v : Nat) (hv : v < 128) :
    decodeList (encode (.songsel v)) = .songsel v := by
  rw [encode_songsel v hv]
  simp only [decodeList, List.getD_cons_zero, List.getD_cons_succ]
  rw [decodeCore_songsel _ _ _ _ (by omega) (by omega)]
  simp only [AlsaEvent.songsel.injEq]
  omega

lemma rt_sysex (d : List Nat) (p : List Nat) (hd : d = 0xF0 :: p ++ [0xF7])
    (hp : ∀ b ∈ p, b < 128) :
    decodeList (encode (.sysex d)) = .sysex d := by
  have hlen : 0 < d.length := by rw [hd]; simp
  have hel : ∀ b ∈ d, b < 256 := by
    intro b hb
    rw [hd] at hb
    rcases List.mem_cons.mp hb with h | h
    · omega
    · rcases List.mem_append.mp h with h2 | h2
      · exact lt_trans (hp b h2) (by omega)
      · rcases List.mem_singleton.mp h2 with h3
        omega
  rw [encode_sysex d hlen, map_mod_id d hel, decodeList]
  have hb0 : d.getD 0 0 = 0xF0 := by rw [hd]; rfl
  rw [decodeCore_sysex _ _ _ _ (by rw [hb0]) (by rw [hb0])]

/-- C1 (amended): decoding the encoded wire bytes reproduces every in-range
ChannelVoice, SystemCommon, SystemRealtime and SysEx message except
SongPosition, for which `decode (encode v) = (v + 8192) % 16384`: the
encoder adds the 8192 pitch-bend offset to the song-position value but the
decoder does not subtract it. -/
theorem roundtrip_amended (m : AlsaEvent) (h : validMsg m) :
    decodeList (encode m) = rtExpected m := by
  cases m with
  | noteoff ch n v => exact rt_noteoff ch n v h.1 h.2.1 h.2.2
  | noteon ch n v => exact rt_noteon ch n v h.1 h.2.1 h.2.2
  | keypress ch n v => exact rt_keypress ch n v h.1 h.2.1 h.2.2
  | controller ch p v => exact rt_controller ch p v h.1 h.2.1 h.2.2
  | pgmchange ch v => exact rt_pgmchange ch v h.1 h.2
  | chanpress ch v => exact rt_chanpress ch v h.1 h.2
  | pitchbend ch v => exact rt_pitchbend ch v h.1 h.2.1 h.2.2
  | sysex d =>
      obtain ⟨p, hd, hp⟩ := h
      exact rt_sysex d p hd hp
  | qframe v => exact rt_qframe v h
  | songpos v => exact rt_songpos v h.1 h.2
  | songsel v => exact rt_songsel v h
  | tune => decide
  | clock => decide
  | start => decide
  | cont => decide
  | stop => decide
  | sensing => decide
  | unknown => exact h.elim

/-- C1 witness: the amended round-trip evaluated at NoteOn channel 0,
note 0x40, velocity 0x7F. -/
theorem roundtrip_amended_witness :
    validMsg (.noteon 0 0x40 0x7F) ∧
      decodeList (encode (.noteon 0 0x40 0x7F)) = rtExpected (.noteon 0 0x40 0x7F) :=
  ⟨⟨by decide, by decide, by decide⟩, roundtrip_amended _ ⟨by decide, by decide, by decide⟩⟩

/-- C1 counterexample: the claimed round-trip fails at SongPosition 0 —
the encoded bytes `F2 00 40` decode to SongPosition 8192, not 0. -/
theorem songpos_roundtrip_fails :
    decodeList (encode (.songpos 0)) = .songpos 8192 ∧
      decodeList (encode (.songpos 0)) ≠ .songpos 0 := by
  constructor
  · decide
  · decide

/-- C7 counterexample: a ProgramChange drained in the same
`write_midi_action_to_serial_port` invocation after a NoteOn is written as
3 bytes `C0 05 50` — the stale `bytes[2]` (0x50, no longer the 0xFF
sentinel) is appended — contradicting the claim that every ProgramChange
is written with exactly 1 data byte. -/
theorem pgmchange_encode_claim_fails :
    (encStep (encStep encInit (.noteon 0 0x40 0x50)).1 (.pgmchange 0 0x05)).2 =
        [0xC0, 0x05, 0x50] ∧
      encRun encInit [.noteon 0 0x40 0x50, .pgmchange 0 0x05] =
        [0x90, 0x40, 0x50, 0xC0, 0x05, 0x50] := by
  constructor
  · decide
  · decide

/-- C7 (amended): for a channel-voice message encoded at a fresh encoder
invocation (the `bytes[2]` sentinel still 0xFF, as at function entry), the
bytes written are the status|channel byte followed by exactly 2 data bytes
for NoteOff/NoteOn/PolyPressure/ControlChange/PitchBend and exactly 1 for
ProgramChange/ChannelPressure, every data byte with bit 7 clear. -/
theorem channel_voice_encode_shape (ch d1 d2 : Nat) (v : Int)
    (hch : ch < 16) (h1 : d1 < 128) (h2 : d2 < 128) (hv1 : -8192 ≤ v) (hv2 : v < 8192) :
    encode (.noteoff ch d1 d2) = [0x80 + ch, d1, d2] ∧
    encode (.noteon ch d1 d2) = [0x90 + ch, d1, d2] ∧
    encode (.keypress ch d1 d2) = [0xA0 + ch, d1, d2] ∧
    encode (.controller ch d1 d2) = [0xB0 + ch, d1, d2] ∧
    encode (.pgmchange ch d1) = [0xC0 + ch, d1] ∧
    encode (.chanpress ch d1) = [0xD0 + ch, d1] ∧
    encode (.pitchbend ch v) =
      [0xE0 + ch, (v + 8192).toNat % 128, (v + 8192).toNat / 128] ∧
    (v + 8192).toNat % 128 < 128 ∧ (v + 8192).toNat / 128 < 128 :=
  ⟨encode_noteoff ch d1 d2 hch h1 h2, encode_noteon ch d1 d2 hch h1 h2,
   encode_keypress ch d1 d2 hch h1 h2, encode_controller ch d1 d2 hch h1 h2,
   encode_pgmchange ch d1 hch h1, encode_chanpress ch d1 hch h1,
   encode_pitchbend ch v hch hv1 hv2, by omega, by omega⟩

/-- C7 witness: the encode shape evaluated at ProgramChange(2, 0x21) and
NoteOn(0, 0x40, 0x7F). -/
theorem channel_voice_encode_shape_witness :
    encode (.pgmchange 2 0x21) = [0xC2, 0x21] ∧ encode (.noteon 0 0x40 0x7F) = [0x90, 0x40, 0x7F] :=
  ⟨(channel_voice_encode_shape 2 0x21 0 0 (by decide) (by decide) (by decide)
      (by decide) (by decide)).2.2.2.2.1,
   (channel_voice_encode_shape 0 0x40 0x7F 0 (by decide) (by decide) (by decide)
      (by decide) (by decide)).2.1⟩

/-- C9: the encoder marks the absence of a second data byte by leaving
`bytes[2] = 0xFF`, so a two-data-byte channel-voice event whose second
data byte is 0xFF (a value the 8-bit ALSA fields can supply) is written
as only 2 bytes — status and first data byte — instead of 3: the emitted
frame length depends on the out-of-range data value, not the kind. -/
theorem sentinel_collision_two_bytes (ch n : Nat) (hch : ch < 16) :
    encode (.noteoff ch n 0xFF) = [0x80 + ch, n % 128] ∧
    encode (.noteon ch n 0xFF) = [0x90 + ch, n % 128] ∧
    encode (.keypress ch n 0xFF) = [0xA0 + ch, n % 128] ∧
    encode (.controller ch n 0xFF) = [0xB0 + ch, n % 128] := by
  refine ⟨?_, ?_, ?_, ?_⟩ <;>
    · simp only [encode, encStep, encEvent, encInit]
      split_ifs <;> simp_all <;> omega

/-- C9 witness: NoteOn(0, 0x40, velocity 0xFF) is written as the 2 bytes
`90 40`. -/
theorem sentinel_collision_two_bytes_witness :
    encode (.noteon 0 0x40 0xFF) = [0x90, 0x40] :=
  (sentinel_collision_two_bytes 0 0x40 (by decide)).2.1

/-- C10: the outbound sysex copy loop stores at exactly the indices
`0 .. len-1` of the 256-byte `sysex_data` buffer with no bound check, so
every store stays in bounds precisely when the source event's length is
at most `SYSEX_DATA_SIZE = 256`; the inbound buffer (`BUF_SIZE = 1024`)
is strictly larger, so inbound-acceptable sysex payloads can exceed the
outbound buffer. -/
theorem sysex_copy_bounds (d : List Nat) :
    ((∀ j ∈ sysexStores d.length, j < SYSEX_DATA_SIZE) ↔ d.length ≤ SYSEX_DATA_SIZE) ∧
      SYSEX_DATA_SIZE < BUF_SIZE := by
  refine ⟨⟨?_, ?_⟩, by decide⟩
  · intro h
    by_contra hlen
    exact absurd (h 256 (by simp [sysexStores, List.mem_range, SYSEX_DATA_SIZE] at hlen ⊢; omega))
      (by simp [SYSEX_DATA_SIZE])
  · intro h j hj
    simp only [sysexStores, List.mem_range] at hj
    simp only [SYSEX_DATA_SIZE] at h ⊢
    omega

lemma run_append (s : FrSt) (xs ys : List Nat) :
    run s (xs ++ ys) =
      ((run s xs).1 ++ (run (run s xs).2 ys).1, (run (run s xs).2 ys).2) := by
  induction xs generalizing s with
  | nil => simp [run]
  | cons b xs ih => simp [run, ih]

lemma run_noteon_frame (s : FrSt) (e f : Nat) (he : e < 128) (hf : f < 128)
    (hm : s.mode = .main) (hbl : s.bl = BUF_SIZE - 1) :
    (run s [0x90, e, f]).1 = [.midi [0x90, e, f] 0x90 e f] := by
  obtain ⟨buf, i, bl, mode⟩ := s
  simp only at hm hbl
  subst hm hbl
  have he2 : e % 256 = e := Nat.mod_eq_of_lt (by omega)
  have hf2 : f % 256 = f := Nat.mod_eq_of_lt (by omega)
  have he3 : e / 128 = 0 := Nat.div_eq_of_lt (by omega)
  have hf3 : f / 128 = 0 := Nat.div_eq_of_lt (by omega)
  simp [run, step, exitEmit, frameOf, BUF_SIZE, he2, hf2, he3, hf3, List.range_succ]

/-- C3 (code bug): feeding the framer exactly `90 40 7F` from its initial
state emits nothing — the pre-loop resynchronisation consumes the status
byte without setting `bytesleft`, which keeps its loop-top value
`BUF_SIZE - 1`, so the inner loop is still waiting for more bytes after
the two data bytes; the claimed NoteOn frame is never delivered (and is
abandoned once any later status byte arrives). -/
theorem first_frame_lost (buf0 : Nat → Nat) :
    runEmits buf0 [0x90, 0x40, 0x7F] = [] ∧
      (run (initSt buf0) [0x90, 0x40, 0x7F]).2.mode = .main ∧
      (run (initSt buf0) [0x90, 0x40, 0x7F]).2.i = 3 ∧
      (run (initSt buf0) [0x90, 0x40, 0x7F]).2.bl = BUF_SIZE - 1 := by
  refine ⟨?_, ?_, ?_, ?_⟩ <;> simp [runEmits, run, step, initSt, exitEmit, frameOf, BUF_SIZE]

/-- C6 (code bug): on status 0xF1 the framer sets `bytesleft = 1` and the
loop exits immediately (`i = 1`), so the frame handed to
`parse_midi_command` is the single byte `F1` with zero collected data
bytes: in the stream `90 40 7F F1 25 ...` the decoded MTC quarter-frame
value is the stale `buf[1]` (0x40), not the data byte 0x25 that follows
0xF1, contradicting the claimed 1-data-byte collection. -/
theorem f1_frame_emitted_without_data (buf0 : Nat → Nat) :
    (run (initSt buf0) [0x90, 0x40, 0x7F, 0xF1, 0x25, 0x90, 0x41, 0x7E]).1 =
      [.midi [0xF1] 0xF1 0x40 0x7F, .midi [0x90, 0x41, 0x7E] 0x90 0x41 0x7E] ∧
    decodedRun [0x90, 0x40, 0x7F, 0xF1, 0x25, 0x90, 0x41, 0x7E] =
      [.qframe 0x40, .noteon 0 0x41 0x7E] := by
  refine ⟨?_, by decide⟩
  simp [run, step, initSt, exitEmit, frameOf, BUF_SIZE, List.range_succ]

/-- C5 (code bug): feeding `FF 00 00 05 'h' 'e' 'l' 'l' 'o'` does not
yield a TextComment.  The 0xFF status is read into `buf[1]` and makes a
1-byte frame, so the marker test `buf[0]==FF && buf[1]==0 && buf[2]==0`
sees stale non-zero bytes and fails; the `FF` frame is forwarded to
`parse_midi_command` (decoded as an unknown system command) and the
following bytes are silently absorbed.  No text output is produced. -/
theorem text_extension_not_produced (buf0 : Nat → Nat) :
    (run (initSt buf0)
        [0x90, 0x40, 0x7F, 0x90, 0x40, 0x7F,
         0xFF, 0x00, 0x00, 0x05, 0x68, 0x65, 0x6C, 0x6C, 0x6F]).1 =
      [.midi [0x90, 0x40, 0x7F] 0x90 0x40 0x7F, .midi [0xFF] 0xFF 0xFF 0x7F] ∧
    decodedRun
        [0x90, 0x40, 0x7F, 0x90, 0x40, 0x7F,
         0xFF, 0x00, 0x00, 0x05, 0x68, 0x65, 0x6C, 0x6C, 0x6F] =
      [.noteon 0 0x40 0x7F, .unknown] := by
  refine ⟨?_, by decide⟩
  simp [run, step, initSt, exitEmit, frameOf, BUF_SIZE, List.range_succ]

/-- C4 counterexample: with `90 F8 40 7F` arriving mid-stream, the 0xF8
is emitted as its own Clock frame, but the interrupted NoteOn is NOT
reassembled: after the Clock, no NoteOn(0,0x40,0x7F) frame ever reaches
the sink — its status byte was overwritten and its data bytes absorbed. -/
theorem realtime_interleave_no_reassembly :
    decodedRun [0x90, 0x40, 0x7F, 0x90, 0x40, 0x7F, 0x90, 0xF8, 0x40, 0x7F,
        0x90, 0x41, 0x7E] =
      [.noteon 0 0x40 0x7F, .clock, .noteon 0 0x41 0x7E] ∧
    AlsaEvent.noteon 0 0x40 0x7F ∉
      (decodedRun [0x90, 0x40, 0x7F, 0x90, 0x40, 0x7F, 0x90, 0xF8, 0x40, 0x7F,
        0x90, 0x41, 0x7E]).drop 1 := by
  refine ⟨by decide, by decide⟩

/-- C4 (amended): an interleaved 0xF8 mid-frame is emitted as its own
zero-data SystemRealtime Clock frame; the interrupted NoteOn frame is
abandoned (not reassembled), and framing recovers: the next complete
frame `90 e f` is delivered correctly for any data bytes `e f`. -/
theorem realtime_interleave_amended (e f : Nat) (he : e < 128) (hf : f < 128) :
    decodedRun ([0x90, 0x40, 0x7F, 0x90, 0x40, 0x7F, 0x90, 0xF8, 0x40, 0x7F] ++
        [0x90, e, f]) =
      [.noteon 0 0x40 0x7F, .clock, .noteon 0 e f] := by
  rw [decodedRun, runEmits, run_append, List.filterMap_append]
  rw [run_noteon_frame _ e f he hf rfl rfl]
  have he2 : e % 256 = e := Nat.mod_eq_of_lt (by omega)
  have hf2 : f % 256 = f := Nat.mod_eq_of_lt (by omega)
  simp [decodeEmit, decodeCore, he2, hf2, run, step, initSt, exitEmit, frameOf,
    BUF_SIZE, List.range_succ]

/-- C4 witness: the amended resynchronisation behaviour evaluated with
the follow-up frame `90 41 7E`. -/
theorem realtime_interleave_amended_witness :
    decodedRun ([0x90, 0x40, 0x7F, 0x90, 0x40, 0x7F, 0x90, 0xF8, 0x40, 0x7F] ++
        [0x90, 0x41, 0x7E]) =
      [.noteon 0 0x40 0x7F, .clock, .noteon 0 0x41 0x7E] :=
  realtime_interleave_amended 0x41 0x7E (by decide) (by decide)

lemma wrOnes_eval (k : Nat) : ∀ (buf : Nat → Nat) (i j : Nat),
    wrOnes buf i k j = if i ≤ j ∧ j < i + k then 1 else buf j := by
  induction k with
  | zero =>
      intro buf i j
      rw [wrOnes]
      rw [if_neg (by omega)]
  | succ k ih =>
      intro buf i j
      rw [wrOnes, ih]
      by_cases h1 : j = i
      · subst h1
        rw [if_neg (by omega), if_pos (by omega)]
        simp
      · simp only [h1, if_false]
        split_ifs <;> first | rfl | omega

lemma run_sysex_fill (k : Nat) : ∀ (s : FrSt), s.mode = .main → s.bl = BUF_SIZE - 1 →
    s.buf 0 = 0xF0 → 1 ≤ s.i → s.i ≤ 1022 → s.i + k = 1023 →
    run s (List.replicate k 1) =
      ([.midi (frameOf (wrOnes s.buf s.i k) 1023) 0xF0
          (wrOnes s.buf s.i k 1) (wrOnes s.buf s.i k 2)],
       ⟨wrOnes s.buf s.i k, 1, BUF_SIZE - 1, .main⟩) := by
  induction k with
  | zero =>
      intro s _ _ _ _ hi2 hk
      omega
  | succ k ih =>
      intro s hm hbl h0 hi1 hi2 hk
      obtain ⟨buf, i, bl, mode⟩ := s
      simp only at hm hbl h0 hi1 hi2 hk
      subst hm hbl
      have h0ne : ¬((0:Nat) = i) := by omega
      have hA0 : (fun j => if j = i then 1 else buf j) 0 = 0xF0 := by
        simp only [h0ne, if_false]
        exact h0
      have hstep : step ⟨buf, i, BUF_SIZE - 1, .main⟩ 1 =
          if i + 1 < BUF_SIZE - 1 then
            (⟨fun j => if j = i then 1 else buf j, i + 1, BUF_SIZE - 1, .main⟩, [])
          else exitEmit (fun j => if j = i then 1 else buf j) (i + 1) := by
        simp [step, hA0]
      rw [List.replicate_succ, run]
      simp only [hstep]
      rcases Nat.eq_zero_or_pos k with hk0 | hkpos
      · subst hk0
        have hi : i = 1022 := by omega
        subst hi
        rw [if_neg (by norm_num [BUF_SIZE])]
        rw [exitEmit, if_neg (by simp [h0])]
        simp [run, wrOnes, h0]
      · rw [if_pos (by simp only [BUF_SIZE]; omega)]
        have := ih ⟨fun j => if j = i then 1 else buf j, i + 1, BUF_SIZE - 1, .main⟩
          rfl rfl hA0 (by show 1 ≤ i + 1; omega) (by show i + 1 ≤ 1022; omega)
          (by show i + 1 + k = 1023; omega)
        simp only at this
        rw [this]
        simp only [List.nil_append]
        rw [show wrOnes buf i (k + 1) = wrOnes (fun j => if j = i then 1 else buf j) (i + 1) k
          from by rw [wrOnes]]

lemma frameOf_wrOnes (buf : Nat → Nat) (k n : Nat) (hn : n = k + 1) (h0 : buf 0 = 0xF0) :
    frameOf (wrOnes buf 1 k) n = 0xF0 :: List.replicate k 1 := by
  subst hn
  apply List.ext_getElem
  · simp [frameOf]
  · intro m h1 h2
    rcases m with _ | j
    · simp [frameOf, wrOnes_eval, h0]
    · have hj : j < k := by
        simp at h2
        omega
      simp only [frameOf, List.getElem_map, List.getElem_range, wrOnes_eval]
      rw [if_pos (by omega)]
      simp [List.getElem_replicate]

/-- C2 counterexample: a sysex frame whose accumulation reaches
`BUF_SIZE - 1` bytes before any 0xF7 terminator is NOT dropped and no
error is raised: the truncated 1023-byte frame `F0 01 ... 01` is handed
to `parse_midi_command` (and thus to the ALSA sink), contradicting the
claimed FrameTooLarge / drop behaviour. -/
theorem oversized_sysex_delivered :
    runEmits (fun _ => 0) oversizedInput =
      [.midi (0xF0 :: List.replicate 1022 1) 0xF0 1 1] ∧
      (0xF0 :: List.replicate 1022 1).length = BUF_SIZE - 1 := by
  constructor
  · rw [runEmits, oversizedInput, run_append]
    rw [run_sysex_fill 1022 _ (by decide) (by decide) (by decide) (by decide) (by decide)
      (by decide)]
    rw [show (run (initSt (fun _ => 0)) [0x90, 0x40, 0x7F, 0xF0]).1 = [] from by decide]
    rw [show (run (initSt (fun _ => 0)) [0x90, 0x40, 0x7F, 0xF0]).2.i = 1 from by decide]
    rw [frameOf_wrOnes _ 1022 1023 (by norm_num) (by decide)]
    rw [wrOnes_eval, if_pos (by omega), wrOnes_eval, if_pos (by omega)]
    simp only [List.nil_append]
  · simp only [List.length_cons, List.length_replicate, BUF_SIZE]

/-- C2 (amended): when sysex accumulation fills the buffer
(`i` reaches `BUF_SIZE - 1 = 1023`) before 0xF7 arrives, the truncated
1023-byte frame is delivered to the decoder as a sysex message — nothing
is dropped and no error value exists — and the loop state resets so that
a following valid frame `90 e f` is still parsed correctly. -/
theorem oversized_sysex_amended (e f : Nat) (he : e < 128) (hf : f < 128) :
    runEmits (fun _ => 0) (oversizedInput ++ [0x90, e, f]) =
      [.midi (0xF0 :: List.replicate 1022 1) 0xF0 1 1,
       .midi [0x90, e, f] 0x90 e f] := by
  rw [runEmits, show oversizedInput ++ [0x90, e, f] =
      [0x90, 0x40, 0x7F, 0xF0] ++ (List.replicate 1022 1 ++ [0x90, e, f]) from by
        rw [oversizedInput, List.append_assoc]]
  rw [run_append, run_append]
  rw [run_sysex_fill 1022 _ (by decide) (by decide) (by decide) (by decide) (by decide)
    (by decide)]
  rw [show (run (initSt (fun _ => 0)) [0x90, 0x40, 0x7F, 0xF0]).1 = [] from by decide]
  rw [show (run (initSt (fun _ => 0)) [0x90, 0x40, 0x7F, 0xF0]).2.i = 1 from by decide]
  rw [run_noteon_frame _ e f he hf rfl rfl]
  rw [frameOf_wrOnes _ 1022 1023 (by norm_num) (by decide)]
  rw [wrOnes_eval, if_pos (by omega), wrOnes_eval, if_pos (by omega)]
  simp only [List.nil_append, List.singleton_append]

/-- C2 witness: the amended overflow behaviour evaluated with the
follow-up frame `90 41 7E`. -/
theorem oversized_sysex_amended_witness :
    runEmits (fun _ => 0) (oversizedInput ++ [0x90, 0x41, 0x7E]) =
      [.midi (0xF0 :: List.replicate 1022 1) 0xF0 1 1,
       .midi [0x90, 0x41, 0x7E] 0x90 0x41 0x7E] :=
  oversized_sysex_amended 0x41 0x7E (by decide) (by decide)

lemma exitEmit_inv (buf' : Nat → Nat) (i' : Nat) : FrInv (exitEmit buf' i').1 := by
  rw [exitEmit]
  split_ifs
  · intro hm
    exact absurd hm (by simp)
  · intro _
    exact ⟨le_refl 1, Or.inl rfl⟩

lemma exitEmit_emit_head (buf' : Nat → Nat) (i' : Nat) (fr : List Nat) (b0 b1 b2 : Nat)
    (hmem : Emit.midi fr b0 b1 b2 ∈ (exitEmit buf' i').2) : b0 = buf' 0 := by
  rw [exitEmit] at hmem
  split_ifs at hmem
  · simp at hmem
  · simp only [List.mem_singleton, Emit.midi.injEq] at hmem
    exact hmem.2.1

lemma step_preserves_inv (s : FrSt) (b : Nat) (h : FrInv s) : FrInv (step s b).1 := by
  obtain ⟨buf, i, bl, mode⟩ := s
  cases mode with
  | resync =>
      simp only [step]
      split_ifs <;> intro hm
      · exact ⟨le_refl 1, Or.inl rfl⟩
      · exact absurd hm (by simp)
  | main =>
      obtain ⟨hi1, hrest⟩ := h rfl
      simp only at hi1 hrest
      have h0i : ¬((0:Nat) = i) := by omega
      simp only [step]
      by_cases c1 : b % 256 / 128 ≠ 0
      · rw [if_pos c1]
        by_cases c2 : b % 256 = 0xF7 ∧ (fun j => if j = i then b % 256 else buf j) 0 = 0xF0
        · rw [if_pos c2]
          exact exitEmit_inv _ _
        · rw [if_neg c2]
          by_cases c6 : 1 < (if b % 256 = 0xF1 ∨ b % 256 = 0xF3 ∨ b % 256 = 0xF5 then 1
              else if 0xF4 ≤ b % 256 ∨ 0xF6 ≤ b % 256 ∨ (0xF8 ≤ b % 256 ∧ b % 256 ≤ 0xFE) then 0
              else if b % 256 ≠ 0xF0 then 3 else bl)
          · rw [if_pos c6]
            intro _
            refine ⟨le_refl 1, Or.inr ?_⟩
            show (128:Nat) ≤ b % 256
            omega
          · rw [if_neg c6]
            exact exitEmit_inv _ _
      · rw [if_neg c1]
        by_cases c10 : (if (fun j => if j = i then b % 256 else buf j) 0 = 0xF0 then i + 1
            else if i = 2 then 3
            else if (fun j => if j = i then b % 256 else buf j) 0 / 16 * 16 = 0xC0 ∨
                (fun j => if j = i then b % 256 else buf j) 0 / 16 * 16 = 0xD0 then 3
            else 2) < bl
        · rw [if_pos c10]
          intro _
          constructor
          · show 1 ≤ if (fun j => if j = i then b % 256 else buf j) 0 = 0xF0 then i + 1
                else if i = 2 then 3
                else if (fun j => if j = i then b % 256 else buf j) 0 / 16 * 16 = 0xC0 ∨
                    (fun j => if j = i then b % 256 else buf j) 0 / 16 * 16 = 0xD0 then 3
                else 2
            split_ifs <;> omega
          · rcases hrest with hbl | hb
            · exact Or.inl hbl
            · refine Or.inr ?_
              show 128 ≤ if (0:Nat) = i then b % 256 else buf 0
              rw [if_neg h0i]
              exact hb
        · rw [if_neg c10]
          exact exitEmit_inv _ _
  | textLen =>
      simp only [step]
      split_ifs <;> intro hm
      · exact ⟨le_refl 1, Or.inl rfl⟩
      · exact absurd hm (by simp)
  | textMsg rem acc =>
      simp only [step]
      split_ifs <;> intro hm
      · exact ⟨le_refl 1, Or.inl rfl⟩
      · exact absurd hm (by simp)

lemma step_emit_head (s : FrSt) (b : Nat) (h : FrInv s) (fr : List Nat) (b0 b1 b2 : Nat)
    (hmem : Emit.midi fr b0 b1 b2 ∈ (step s b).2) : 128 ≤ b0 := by
  obtain ⟨buf, i, bl, mode⟩ := s
  cases mode with
  | resync =>
      simp only [step] at hmem
      split_ifs at hmem <;> simp at hmem
  | main =>
      obtain ⟨hi1, hrest⟩ := h rfl
      simp only at hi1 hrest
      have hrest' : bl = 1023 ∨ 128 ≤ buf 0 := by simpa [BUF_SIZE] using hrest
      have h0i : ¬((0:Nat) = i) := by omega
      simp only [step] at hmem
      by_cases c1 : b % 256 / 128 ≠ 0
      · rw [if_pos c1] at hmem
        by_cases c2 : b % 256 = 0xF7 ∧ (fun j => if j = i then b % 256 else buf j) 0 = 0xF0
        · rw [if_pos c2] at hmem
          have hb0 := exitEmit_emit_head _ _ _ _ _ _ hmem
          have h240 : (if (0:Nat) = i then b % 256 else buf 0) = 0xF0 := c2.2
          rw [hb0, h240]
          norm_num
        · rw [if_neg c2] at hmem
          by_cases c6 : 1 < (if b % 256 = 0xF1 ∨ b % 256 = 0xF3 ∨ b % 256 = 0xF5 then 1
              else if 0xF4 ≤ b % 256 ∨ 0xF6 ≤ b % 256 ∨ (0xF8 ≤ b % 256 ∧ b % 256 ≤ 0xFE) then 0
              else if b % 256 ≠ 0xF0 then 3 else bl)
          · rw [if_pos c6] at hmem
            simp at hmem
          · rw [if_neg c6] at hmem
            have hb0 := exitEmit_emit_head _ _ _ _ _ _ hmem
            rw [hb0]
            show (128:Nat) ≤ b % 256
            omega
      · rw [if_neg c1] at hmem
        by_cases c10 : (if (if (0:Nat) = i then b % 256 else buf 0) = 0xF0 then i + 1
            else if i = 2 then 3
            else if (if (0:Nat) = i then b % 256 else buf 0) / 16 * 16 = 0xC0 ∨
                (if (0:Nat) = i then b % 256 else buf 0) / 16 * 16 = 0xD0 then 3
            else 2) < bl
        · rw [if_pos c10] at hmem
          simp at hmem
        · rw [if_neg c10] at hmem
          have hb0 := exitEmit_emit_head _ _ _ _ _ _ hmem
          rw [hb0]
          by_cases c7 : (if (0:Nat) = i then b % 256 else buf 0) = 0xF0
          · rw [c7]
            norm_num
          · rcases hrest' with hbl | hb
            · exfalso
              rw [if_neg c7] at c10
              subst hbl
              split_ifs at c10 <;> omega
            · show 128 ≤ if (0:Nat) = i then b % 256 else buf 0
              rw [if_neg h0i]
              exact hb
  | textLen =>
      simp only [step] at hmem
      split_ifs at hmem <;> simp at hmem
  | textMsg rem acc =>
      simp only [step] at hmem
      split_ifs at hmem <;> simp at hmem

lemma run_emit_head (inp : List Nat) : ∀ (s : FrSt), FrInv s →
    ∀ e ∈ (run s inp).1, ∀ fr b0 b1 b2, e = Emit.midi fr b0 b1 b2 → 128 ≤ b0 := by
  induction inp with
  | nil =>
      intro s _ e he
      simp [run] at he
  | cons b rest ih =>
      intro s hs e he fr b0 b1 b2 heq
      rw [run] at he
      simp only [List.mem_append] at he
      rcases he with he | he
      · subst heq
        exact step_emit_head s b hs fr b0 b1 b2 he
      · exact ih (step s b).1 (step_preserves_inv s b hs) e he fr b0 b1 b2 heq

/-- C8: on every invocation of `parse_midi_command` made by the framing
loop — for any initial buffer contents and any input byte stream — the
first byte of the delivered frame (`buf[0]`, recorded as the emission's
`b0`) has its high bit set: the decoder is never invoked on a frame that
begins with a data byte. -/
theorem decoder_input_status_invariant (buf0 : Nat → Nat) (input : List Nat) :
    ∀ e ∈ runEmits buf0 input, ∀ fr b0 b1 b2, e = Emit.midi fr b0 b1 b2 → 128 ≤ b0 := by
  apply run_emit_head
  intro hm
  exact absurd hm (by simp [initSt])

/-- C8 witness: the invariant applied to a concrete emission of the
stream `90 40 7F 90 41 7E`. -/
theorem decoder_input_status_invariant_witness :
    (Emit.midi [0x90, 0x41, 0x7E] 0x90 0x41 0x7E ∈
        runEmits (fun _ => 0) [0x90, 0x40, 0x7F, 0x90, 0x41, 0x7E]) ∧
      128 ≤ 0x90 :=
  ⟨by decide,
   decoder_input_status_invariant (fun _ => 0) [0x90, 0x40, 0x7F, 0x90, 0x41, 0x7E]
     (Emit.midi [0x90, 0x41, 0x7E] 0x90 0x41 0x7E) (by decide)
     [0x90, 0x41, 0x7E] 0x90 0x41 0x7E rfl⟩
